import Mathlib

/-!
Verification of the land-parcel-research-tool job subsystem.

Shallow embedding of the pure string-processing kernels
(`apps/api/utils/label_exporter.py`, `apps/api/utils/file_parser.py`,
`apps/api/scrapers/wthgis_scraper.py`, `apps/api/scrapers/beacon_scraper.py`)
and trace models of the effectful parts
(`apps/api/worker.py` job executor, the PDF downloaders).

Python strings are modelled as `String` / `List Char`; the specific regular
expressions used by the code are compiled by hand into executable scanners
with Python `re.search` semantics (leftmost match, greedy with the exact
backtracking the concrete patterns allow).
-/

/-- Python `str.strip()` whitespace set: space, tab, newline, carriage return,
vertical tab, form feed. -/
def pySpace (c : Char) : Bool :=
  c = ' ' || c = '\t' || c = '\n' || c = '\r' || c = '\u000b' || c = '\u000c'

/-- Python regex `\w` over ASCII input: letters, digits, underscore. -/
def isWordC (c : Char) : Bool := c.isAlpha || c.isDigit || c = '_'

/-- ASCII upper-case letter test (regex `[A-Z]`). -/
def isUpperAZ (c : Char) : Bool := 'A' ≤ c && c ≤ 'Z'

/-- Strip `pySpace` characters from the left of a char list. -/
def stripLeftL (l : List Char) : List Char := l.dropWhile pySpace

/-- Python `str.strip()` on a char list: drop whitespace at both ends. -/
def pyStripL (l : List Char) : List Char :=
  ((l.dropWhile pySpace).reverse.dropWhile pySpace).reverse

/-- Python `str.strip()` on a `String`. -/
def pyStrip (s : String) : String := ⟨pyStripL s.data⟩

/-- Python `str.strip(chars)`: drop characters of `cs` at both ends. -/
def stripCharsL (cs : List Char) (l : List Char) : List Char :=
  ((l.dropWhile (fun c => cs.contains c)).reverse.dropWhile
      (fun c => cs.contains c)).reverse

/-- Python `str.split(sep)` for a one-character separator: split at every
occurrence, keeping empty pieces (`"a\n\nb".split('\n') = ["a","","b"]`). -/
def splitOnCharL (sep : Char) : List Char → List (List Char)
  | [] => [[]]
  | c :: rest =>
    let r := splitOnCharL sep rest
    if c = sep then [] :: r
    else
      match r with
      | [] => [[c]]
      | h :: t => (c :: h) :: t

/-- Worker for `splitWsL`: accumulates the current word (reversed). -/
def splitWsGo : List Char → List Char → List (List Char)
  | acc, [] => if acc.isEmpty then [] else [acc.reverse]
  | acc, c :: rest =>
    if pySpace c then
      if acc.isEmpty then splitWsGo [] rest
      else acc.reverse :: splitWsGo [] rest
    else splitWsGo (c :: acc) rest

/-- Python `str.split()` with no argument: split on whitespace runs,
no empty pieces. -/
def splitWsL (l : List Char) : List (List Char) := splitWsGo [] l

/-- Fuel-driven worker for Python `str.replace(needle, repl)`: replaces every
non-overlapping occurrence, scanning left to right.  The fuel is the length of
the haystack, which suffices because every step consumes at least one
character when the needle is non-empty. -/
def replaceAllGo : Nat → List Char → List Char → List Char → List Char
  | 0, _, _, hay => hay
  | fuel + 1, needle, repl, hay =>
    match hay with
    | [] => []
    | c :: rest =>
      if !needle.isEmpty && needle.isPrefixOf (c :: rest) then
        repl ++ replaceAllGo fuel needle repl ((c :: rest).drop needle.length)
      else
        c :: replaceAllGo fuel needle repl rest

/-- Python `hay.replace(needle, repl)` on char lists (all our needles are
non-empty, so the empty-needle corner of Python never arises). -/
def replaceAllL (needle repl hay : List Char) : List Char :=
  replaceAllGo hay.length needle repl hay

/-- Python `sep.split(s, 1)[0] / [1]` for a one-character separator: the part
before the first occurrence, and the remainder after it when present. -/
def splitFirstL (sep : Char) : List Char → List Char × Option (List Char)
  | [] => ([], none)
  | c :: rest =>
    if c = sep then ([], some rest)
    else
      let r := splitFirstL sep rest
      (c :: r.1, r.2)

/-- Substring containment (Python `needle in hay`). -/
def containsSubL (needle : List Char) : List Char → Bool
  | [] => needle.isEmpty
  | c :: rest => needle.isPrefixOf (c :: rest) || containsSubL needle rest

/-- Python `str.upper()` on ASCII data. -/
def pyUpperL (l : List Char) : List Char := l.map Char.toUpper

/-- Python `str.lower()` on ASCII data. -/
def pyLowerL (l : List Char) : List Char := l.map Char.toLower

/-- Python `str.title()` on ASCII data: a letter after a non-letter is
upper-cased, a letter after a letter is lower-cased.  The flag records whether
the previous character was a letter. -/
def pyTitleGo : Bool → List Char → List Char
  | _, [] => []
  | prev, c :: rest =>
    let c2 := if c.isAlpha then (if prev then c.toLower else c.toUpper) else c
    c2 :: pyTitleGo c.isAlpha rest

/-- Generic embedding of `re.search` for a pattern that is decided by looking
at one suffix: returns the least index whose suffix satisfies `p`. -/
def scanIdx (p : List Char → Bool) : List Char → Option Nat
  | [] => if p [] then some 0 else none
  | c :: rest =>
    if p (c :: rest) then some 0
    else (scanIdx p rest).map (· + 1)

/-- Embedding of `re.search` for patterns that additionally consult the
character before the match (for `\b`): `p` receives the previous character
(`none` at the start of the string) and the suffix, and returns a payload on
success.  Returns the least matching index with its payload. -/
def scanFindP {α : Type} (p : Option Char → List Char → Option α) :
    Option Char → List Char → Option (Nat × α)
  | prev, [] => (p prev []).map (fun a => (0, a))
  | prev, c :: rest =>
    match p prev (c :: rest) with
    | some a => some (0, a)
    | none => (scanFindP p (some c) rest).map (fun r => (r.1 + 1, r.2))

/-- The 9-character pattern `\d{2}-\d{2}-\d{2}-` tested at the head of a
suffix (`label_exporter.extract_parcel_id`, line 33). -/
def dashPat : List Char → Bool
  | a :: b :: c :: d :: e :: f :: g :: h :: i :: _ =>
    a.isDigit && b.isDigit && c = '-' && d.isDigit && e.isDigit && f = '-' &&
      g.isDigit && h.isDigit && i = '-'
  | _ => false

/-- `label_exporter.extract_parcel_id` (lines 23–36): strip the input, search
for the first occurrence of `\d{2}-\d{2}-\d{2}-`, and keep everything from the
match start; return the stripped input when the pattern is absent. -/
def extract_parcel_id (s : String) : String :=
  let t := pyStripL s.data
  match scanIdx dashPat t with
  | some i => ⟨t.drop i⟩
  | none => ⟨t⟩

/-- Take exactly `n` leading decimal digits: returns them with the remainder,
or `none` when fewer than `n` digits lead the list. -/
def takeDigits : Nat → List Char → Option (List Char × List Char)
  | 0, l => some ([], l)
  | _ + 1, [] => none
  | n + 1, c :: rest =>
    if c.isDigit then
      (takeDigits n rest).map (fun r => (c :: r.1, r.2))
    else none

/-- Word boundary `\b` immediately before a word character, decided from the
previous character (`none` = start of string). -/
def boundaryBefore : Option Char → Bool
  | none => true
  | some c => !isWordC c

/-- Match attempt at one position for `\b(\d{5}(?:-\d{4})?)\b`
(`beacon_scraper._parse_address`, line 342).  Returns the length of the
matched text (5, or 10 for the `ddddd-dddd` form).  The greedy optional
`-\d{4}` is taken when its
trailing `\b` holds; otherwise the engine backtracks to the bare five-digit
form, whose trailing `\b` is then checked. -/
def zipLenAt (prev : Option Char) (l : List Char) : Option Nat :=
  if boundaryBefore prev then
    match takeDigits 5 l with
    | none => none
    | some (_, r) =>
      match r with
      | '-' :: r2 =>
        match takeDigits 4 r2 with
        | some (_, r3) =>
          match r3 with
          | [] => some 10
          | c :: _ => if isWordC c then some 5 else some 10
        | none => some 5
      | [] => some 5
      | c :: _ => if isWordC c then none else some 5
  else none

/-- Tail of the state pattern `\b([A-Z]{2})\s*,?\s*$` after the two letters:
optional whitespace, an optional single comma, optional whitespace, then the
end of the string. -/
def stateTailOk (l : List Char) : Bool :=
  match l.dropWhile pySpace with
  | [] => true
  | ',' :: r => (r.dropWhile pySpace).isEmpty
  | _ => false

/-- Match attempt at one position for `\b([A-Z]{2})\s*,?\s*$`
(`beacon_scraper._parse_address`, line 349).  Returns the two letters. -/
def statePat (prev : Option Char) (l : List Char) : Option (List Char) :=
  match l with
  | a :: b :: rest =>
    if boundaryBefore prev && isUpperAZ a && isUpperAZ b && stateTailOk rest
    then some [a, b]
    else none
  | _ => none

/-- Result of `BeaconScraper._parse_address`: the four components, empty when
missing. -/
structure Addr where
  street : String
  city : String
  state : String
  zip : String
deriving DecidableEq, Repr

/-- `BeaconScraper._parse_address` (beacon_scraper.py lines 317–366): replace
newlines with `", "`, drop carriage returns, extract and delete the ZIP, peel
a trailing two-letter state, then split the rest on commas into street (first
part) and city (last part); a single remaining part becomes the street. -/
def parse_address (address_text : String) : Addr :=
  if address_text.data.isEmpty then ⟨"", "", "", ""⟩
  else
    let t0 := replaceAllL ['\r'] [] (replaceAllL ['\n'] [',', ' '] address_text.data)
    let zipFound := scanFindP zipLenAt none t0
    let zipStr : List Char :=
      match zipFound with
      | some (i, len) => (t0.drop i).take len
      | none => []
    let t1 : List Char :=
      match zipFound with
      | some _ => pyStripL (replaceAllL zipStr [] t0)
      | none => t0
    let stFound := scanFindP statePat none t1
    let stStr : List Char :=
      match stFound with
      | some (_, st) => st
      | none => []
    let t2 : List Char :=
      match stFound with
      | some (i, _) => pyStripL (t1.take i)
      | none => t1
    let parts := ((splitOnCharL ',' t2).filter
        (fun p => !(pyStripL p).isEmpty)).map pyStripL
    match parts with
    | [] => ⟨"", "", ⟨stStr⟩, ⟨zipStr⟩⟩
    | [p] => ⟨⟨p⟩, "", ⟨stStr⟩, ⟨zipStr⟩⟩
    | p1 :: p2 :: rest => ⟨⟨p1⟩, ⟨(p2 :: rest).getLastD []⟩, ⟨stStr⟩, ⟨zipStr⟩⟩

/-- Tail of the ThinkGIS city/state/zip pattern after the comma:
`\s*([A-Z]{2})\s+(\d{5}(?:-\d{4})?)` (`wthgis_scraper.parse_city_state_zip`,
line 47).  Returns the state and zip groups; the zip group is greedy, taking
the `-\d{4}` extension whenever it is present. -/
def cszTailGroups (l : List Char) : Option (List Char × List Char) :=
  match l.dropWhile pySpace with
  | a :: b :: rest =>
    if isUpperAZ a && isUpperAZ b then
      match rest with
      | c :: _ =>
        if pySpace c then
          match takeDigits 5 (rest.dropWhile pySpace) with
          | none => none
          | some (d5, r4) =>
            match r4 with
            | '-' :: r5 =>
              match takeDigits 4 r5 with
              | some (d4, _) => some ([a, b], d5 ++ '-' :: d4)
              | none => some ([a, b], d5)
            | _ => some ([a, b], d5)
        else none
      | [] => none
    else none
  | _ => none

/-- Scanner for `^(.*?),` followed by `cszTailGroups`: the non-greedy city
group takes the least comma position whose suffix completes the match; the
dot cannot cross a newline, so scanning stops at one.  Returns the comma
index and the state/zip groups. -/
def cszScan : List Char → Option (Nat × List Char × List Char)
  | [] => none
  | c :: rest =>
    if c = ',' then
      match cszTailGroups rest with
      | some g => some (0, g.1, g.2)
      | none => (cszScan rest).map (fun r => (r.1 + 1, r.2.1, r.2.2))
    else if c = '\n' then none
    else (cszScan rest).map (fun r => (r.1 + 1, r.2.1, r.2.2))

/-- The normalisation `wthgis_scraper.parse_city_state_zip` applies before its
regex: collapse whitespace runs (`" ".join(s.split())`), remove the space of
every `", "`, and upper-case. -/
def cszNormalize (s : String) : List Char :=
  pyUpperL (replaceAllL [',', ' '] [','] (List.intercalate [' '] (splitWsL s.data)))

/-- `wthgis_scraper.parse_city_state_zip` (lines 37–53): all-or-nothing parse
of `"CITY,ST 12345(-6789)"`-shaped strings; the city group is title-cased. -/
def parse_city_state_zip (s : String) :
    Option String × Option String × Option String :=
  if s.data.isEmpty then (none, none, none)
  else
    let up := cszNormalize s
    match cszScan up with
    | none => (none, none, none)
    | some (k, st, zp) =>
      (some ⟨pyTitleGo false (up.take k)⟩, some ⟨st⟩, some ⟨zp⟩)

/-- Characters kept verbatim by `wthgis_scraper.safe_filename`'s regex
`[^\w\-.]+` (everything else is squashed to `_`). -/
def keepC (c : Char) : Bool := isWordC c || c = '-' || c = '.'

/-- Worker for `safe_filename`: the flag records whether the previous
character was part of a squashed run (the regex replaces each maximal run of
disallowed characters with a single underscore). -/
def squashGo : Bool → List Char → List Char
  | _, [] => []
  | inRun, c :: rest =>
    if keepC c then c :: squashGo false rest
    else if inRun then squashGo true rest
    else '_' :: squashGo true rest

/-- `wthgis_scraper.safe_filename` (lines 31–34): strip, squash runs of
characters outside `[\w\-.]` to `_`, and truncate to 180 characters. -/
def safe_filename (s : String) : String :=
  let t := squashGo false (pyStripL s.data)
  ⟨if t.length > 180 then t.take 180 else t⟩

/-- The entity keywords of `wthgis_scraper.owner_filename_stub` (lines 67–71);
each carries a leading space, so a keyword at the very start of the name does
not match. -/
def entityKeywords : List (List Char) :=
  [" LLC", " INC", " CORP", " CO", " COMPANY", " TRUST",
   " BANK", " CITY", " TOWN", " COUNTY", " SCHOOL",
   " CHURCH", " ASSOCIATION", " AUTHORITY"].map String.data

/-- The suffixes stripped from entity names (lines 78–79), applied in order by
repeated `str.replace`. -/
def entitySuffixes : List (List Char) :=
  [" LLC", " L.L.C.", " INC", " INC.", " CORP", " CORP.",
   " CO.", " CO ", " COMPANY", " TRUST", " LTD", " LTD."].map String.data

/-- `wthgis_scraper.owner_filename_stub` (lines 56–98): empty input maps to
`UNKNOWN`; names containing an entity keyword have business suffixes removed;
otherwise a comma name keeps the part before the comma, and a multi-word name
keeps its last token. -/
def owner_filename_stub (owner_name : String) : String :=
  if owner_name.data.isEmpty then "UNKNOWN"
  else
    let name := pyUpperL (pyStripL owner_name.data)
    if entityKeywords.any (fun k => containsSubL k name) then
      let c1 := entitySuffixes.foldl (fun acc suf => replaceAllL suf [] acc) name
      let c2 := stripCharsL " .,&".data c1
      let c3 := List.intercalate [' '] (splitWsL c2)
      safe_filename ⟨c3⟩
    else if name.contains ',' then
      safe_filename ⟨pyStripL (splitFirstL ',' name).1⟩
    else
      match splitWsL name with
      | [] => safe_filename ⟨name⟩
      | [_] => safe_filename ⟨name⟩
      | p :: ps => safe_filename ⟨(p :: ps).getLastD []⟩

/-- `file_parser.parse_txt` (lines 51–67): strip the whole text, split on
newlines, and keep the stripped non-empty lines in order.  (The txt branch of
`BaseScraper.read_parcel_ids`, base_scraper.py lines 55–57, computes the same
list line by line.) -/
def parse_txt (content : String) : List String :=
  let lines := splitOnCharL '\n' (pyStripL content.data)
  (lines.filter (fun l => !(pyStripL l).isEmpty)).map
    (fun l => (⟨pyStripL l⟩ : String))

/-- The joined row consumed by `label_exporter.build_label`: one optional
field per column the function probes, `none` meaning the column is absent or
its value fails `pd.notna`. -/
structure LabelRow where
  parcelid_join : Option String
  parcel_id : Option String
  owner_name_col : Option String
  name_col : Option String
  owner_name_lc : Option String
  doc_instrument : Option String
  inst_book_page : Option String
  document_id : Option String
deriving DecidableEq, Repr

/-- First present value in a column priority list (the `for col in [...]`
probes of `build_label`). -/
def firstPresent : List (Option String) → Option String
  | [] => none
  | some v :: _ => some v
  | none :: rest => firstPresent rest

/-- The instrument line of `build_label` (lines 67–81): skipped when the
stripped value is empty or the literal `nan`; rendered as `BK./PG.` when it
contains a slash and as `INST#` otherwise. -/
def instrumentParts (v : String) : List String :=
  let instL := pyStripL v.data
  if instL.isEmpty || pyLowerL instL = "nan".data then []
  else
    match splitFirstL '/' instL with
    | (_, none) => [⟨"INST# ".data ++ instL⟩]
    | (book, some page) =>
      [⟨"BK. ".data ++ pyStripL book ++ ", PG. ".data ++ pyStripL page⟩]

/-- The list of label lines built by `label_exporter.build_label`
(lines 39–83): parcel number, upper-cased owner, instrument line. -/
def buildLabelParts (row : LabelRow) : List String :=
  (match row.parcelid_join with
   | some v => ["PARCEL# " ++ v]
   | none =>
     match row.parcel_id with
     | some v => ["PARCEL# " ++ v]
     | none => []) ++
  (match firstPresent [row.owner_name_col, row.name_col, row.owner_name_lc] with
   | some v => [(⟨pyUpperL v.data⟩ : String)]
   | none => []) ++
  (match firstPresent [row.doc_instrument, row.inst_book_page, row.document_id] with
   | some v => instrumentParts v
   | none => [])

/-- `label_exporter.build_label`: the parts joined with newlines. -/
def build_label (row : LabelRow) : String :=
  "\n".intercalate (buildLabelParts row)

/-- Observable events of one `ParcelJobWorker._process_job` run
(worker.py lines 112–197).  `check b` is a `find_one` read of the job status
(`b` = the read saw `cancelled`); `scrape i` is the per-parcel search /
extract / download step of the scraper loop; the remaining events are the
post-scrape pipeline stages. -/
inductive WEv where
  | check (cancelled : Bool)
  | scrape (i : Nat)
  | exportStep
  | uploadStep
  | finishStep
deriving DecidableEq, Repr

/-- The per-parcel loop of `BeaconScraper.scrape_parcels` (beacon_scraper.py
lines 201–283): one scrape step per input id, with no read of the job status
anywhere in the loop (the only callback, `_update_progress`, writes progress
and never reads `status`). -/
def beaconScrapeEvents (n : Nat) : List WEv := (List.range n).map WEv.scrape

/-- Trace of `_process_job` on an `n`-parcel job when the HTTP layer sets
`status = cancelled` just before the event of index `cancelAt` executes
(`cancelAt = 0`: before the run; any value past the end: never during the
run).  The worker reads the flag twice: right after the claim (index 0,
worker.py line 114) and between scrape and export (index `n + 1`, line 150);
a read that sees `cancelled` returns from `_process_job` at once. -/
def process_job_trace (n cancelAt : Nat) : List WEv :=
  if cancelAt = 0 then [WEv.check true]
  else if cancelAt ≤ n + 1 then
    WEv.check false :: beaconScrapeEvents n ++ [WEv.check true]
  else
    WEv.check false :: beaconScrapeEvents n ++
      [WEv.check false, WEv.exportStep, WEv.uploadStep, WEv.finishStep]

/-- Is an event a per-parcel scrape step? -/
def isScrape : WEv → Bool
  | WEv.scrape _ => true
  | _ => false

/-- Number of per-parcel scrape steps performed at or after trace position
`t`, i.e. after the cancellation flag set at time `t` is visible. -/
def scrapesAfter (t : Nat) (tr : List WEv) : Nat :=
  ((tr.drop t).filter isScrape).length

/-- Job-record fields relevant to the progress counters (models/ParcelJob.py:
`status`, `parcels_completed`, `parcels_failed`, `parcel_count`,
`results`). -/
inductive JStatus where
  | pending
  | processing
  | completed
  | failed
  | cancelled
deriving DecidableEq, Repr

structure JobRec where
  status : JStatus
  parcels_completed : Nat
  parcels_failed : Nat
  parcel_count : Nat
  results_present : Bool
deriving DecidableEq, Repr

/-- `ParcelJobWorker._update_progress` (worker.py lines 210–218): the update
document sets only `parcels_completed` (and `updated_at`); `parcels_failed`
is never written. -/
def update_progress (r : JobRec) (completed : Nat) (_total : Nat) : JobRec :=
  { r with parcels_completed := completed }

/-- The terminal update of `_process_job` (worker.py lines 172–181): set
`status = completed` and record `results`; the counters are not touched. -/
def completeJob (r : JobRec) : JobRec :=
  { r with status := JStatus.completed, results_present := true }

/-- The running `processed` counter of `WTHGISScraper.scrape_parcels`
(wthgis_scraper.py lines 446–508): it increments only on a successful parcel,
and its value is reported through `progress_callback` after every parcel. -/
def runningSuccesses (acc : Nat) : List Bool → List Nat
  | [] => []
  | b :: rest =>
    let acc2 := if b then acc + 1 else acc
    acc2 :: runningSuccesses acc2 rest

/-- The sequence of job records produced during the scrape phase: one
`_update_progress` write per parcel, fed with the scraper's `processed`
counter. -/
def scrapePhase (r : JobRec) (outcomes : List Bool) : JobRec :=
  (runningSuccesses 0 outcomes).foldl
    (fun rec v => update_progress rec v outcomes.length) r

/-- One full `_process_job` run over a WTHGIS job in which export and upload
succeed: claim (status := processing), scrape with per-parcel progress
writes, then the completed update. -/
def processJobRecord (r : JobRec) (outcomes : List Bool) : JobRec :=
  completeJob (scrapePhase { r with status := JStatus.processing } outcomes)

/-- Filesystem and network effects of the document downloaders.  The `rename`
constructor is part of the observation language so that the atomic
temp-then-rename discipline can be stated; the code under `src/` never emits
it. -/
inductive FsEff where
  | sleep
  | httpGet (url : String)
  | mkdirs (dir : String)
  | fileWrite (path : String)
  | rename (src dst : String)
deriving DecidableEq, Repr

/-- Local filesystem state: an association list from path to contents
(network and filesystem bytes are abstract `List Nat`). -/
structure FState where
  files : List (String × List Nat)
deriving DecidableEq, Repr

def lookupF (fs : FState) (p : String) : Option (List Nat) :=
  (fs.files.find? (fun e => e.1 == p)).map (fun e => e.2)

/-- `os.path.exists(p) and os.path.getsize(p) > 0`. -/
def existsNonEmpty (fs : FState) (p : String) : Bool :=
  match lookupF fs p with
  | some b => !b.isEmpty
  | none => false

def writeFileF (fs : FState) (p : String) (bytes : List Nat) : FState :=
  ⟨(p, bytes) :: fs.files⟩

/-- `os.path.dirname`. -/
def dirnameOf (p : String) : String :=
  ⟨((p.data.reverse.dropWhile (fun c => c ≠ '/')).drop 1).reverse⟩

/-- `BeaconScraper._download_prc` (beacon_scraper.py lines 777–796): return at
once when the target exists non-empty; otherwise polite delay, HTTP GET
(raising on error), `makedirs`, then write the response body directly to the
target path.  Result, new filesystem state, effect trace. -/
def download_prc (fs : FState) (fetch : String → Except String (List Nat))
    (url path : String) :
    Except String String × FState × List FsEff :=
  if existsNonEmpty fs path then (Except.ok path, fs, [])
  else
    match fetch url with
    | Except.error e => (Except.error e, fs, [FsEff.sleep, FsEff.httpGet url])
    | Except.ok bytes =>
      (Except.ok path, writeFileF fs path bytes,
        [FsEff.sleep, FsEff.httpGet url, FsEff.mkdirs (dirnameOf path),
         FsEff.fileWrite path])

/-- `wthgis_scraper.download_report_card` (lines 356–368): `makedirs` first,
then the same existing-file short-circuit, delay, GET, and a direct write to
the target path. -/
def download_report_card (fs : FState)
    (fetch : String → Except String (List Nat)) (url path : String) :
    Except String String × FState × List FsEff :=
  if existsNonEmpty fs path then
    (Except.ok path, fs, [FsEff.mkdirs (dirnameOf path)])
  else
    match fetch url with
    | Except.error e =>
      (Except.error e, fs,
        [FsEff.mkdirs (dirnameOf path), FsEff.sleep, FsEff.httpGet url])
    | Except.ok bytes =>
      (Except.ok path, writeFileF fs path bytes,
        [FsEff.mkdirs (dirnameOf path), FsEff.sleep, FsEff.httpGet url,
         FsEff.fileWrite path])

/-- Network I/O test on an effect: true for the HTTP request and for the
politeness delay that precedes one. -/
def isNetworkEff : FsEff → Bool
  | FsEff.sleep => true
  | FsEff.httpGet _ => true
  | _ => false

/-- The atomic-write discipline claimed by the spec for a download with final
target `target`: some sibling temporary path is written and then renamed onto
the target. -/
def atomicTempRename (target : String) (tr : List FsEff) : Prop :=
  ∃ tmp, tmp ≠ target ∧ FsEff.fileWrite tmp ∈ tr ∧ FsEff.rename tmp target ∈ tr

/-! ## Supporting lemmas -/

theorem scanIdx_some (p : List Char → Bool) (l : List Char) (i : Nat)
    (h : scanIdx p l = some i) :
    p (l.drop i) = true ∧ ∀ j, j < i → p (l.drop j) = false := by
  induction l generalizing i with
  | nil =>
    by_cases hp : p []
    · simp [scanIdx, hp] at h
      subst h
      exact ⟨by simpa using hp, fun j hj => absurd hj (Nat.not_lt_zero j)⟩
    · simp [scanIdx, hp] at h
  | cons c rest ih =>
    by_cases hp : p (c :: rest)
    · simp [scanIdx, hp] at h
      subst h
      exact ⟨by simpa using hp, fun j hj => absurd hj (Nat.not_lt_zero j)⟩
    · simp [scanIdx, hp] at h
      obtain ⟨i0, hi0, hrec⟩ := h
      obtain ⟨h1, h2⟩ := ih i0 hi0
      subst hrec
      refine ⟨by simpa using h1, ?_⟩
      intro j hj
      cases j with
      | zero => simpa using hp
      | succ j0 =>
        have := h2 j0 (Nat.lt_of_succ_lt_succ hj)
        simpa using this

theorem scanIdx_none (p : List Char → Bool) (l : List Char)
    (h : scanIdx p l = none) : ∀ j, p (l.drop j) = false := by
  induction l with
  | nil =>
    intro j
    by_cases hp : p []
    · simp [scanIdx, hp] at h
    · cases j <;> simpa using hp
  | cons c rest ih =>
    by_cases hp : p (c :: rest)
    · simp [scanIdx, hp] at h
    · simp [scanIdx, hp] at h
      intro j
      cases j with
      | zero => simpa using hp
      | succ j0 => simpa using ih h j0

theorem filter_isScrape_map (l : List Nat) :
    (l.map WEv.scrape).filter isScrape = l.map WEv.scrape := by
  induction l with
  | nil => rfl
  | cons a t ih => simp [isScrape, ih]

theorem scrape_notMem_map (e : WEv) (he : isScrape e = false) (l : List Nat) :
    e ∉ l.map WEv.scrape := by
  intro hmem
  obtain ⟨i, _, hi⟩ := List.mem_map.mp hmem
  subst hi
  simp [isScrape] at he

theorem scrapesAfter_le_total (t : Nat) (tr : List WEv) :
    scrapesAfter t tr ≤ (tr.filter isScrape).length := by
  unfold scrapesAfter
  exact ((tr.drop_sublist t).filter isScrape).length_le

theorem parse_txt_filter_map_comm (lines : List (List Char)) :
    (lines.filter (fun l => !(pyStripL l).isEmpty)).map
        (fun l => (⟨pyStripL l⟩ : String)) =
      (lines.map (fun l => (⟨pyStripL l⟩ : String))).filter
        (fun s => !s.data.isEmpty) := by
  induction lines with
  | nil => rfl
  | cons h t ih =>
    by_cases hc : (pyStripL h).isEmpty <;>
      simp [List.filter_cons, hc, ih, String.data]

/-! ## Claim theorems -/

/-- Claim C1, counterexample: with a 3-parcel job whose cancellation flag is
set right after the post-claim check (trace time 1), the worker still scrapes
all 3 parcels after the flag is set — refuting "no run of the job executor
performs two or more per-parcel scrape steps after the cancellation flag is
set". -/
theorem cancellation_one_parcel_cex :
    scrapesAfter 1 (process_job_trace 3 1) = 3 ∧
    ¬ scrapesAfter 1 (process_job_trace 3 1) ≤ 1 := by
  decide

/-- Claim C1, amended: the executor checks the cancellation flag after the
claim and between scrape and export, but not per parcel; cancellation set
during scraping halts the run before the export/upload/completion steps, yet
up to all `n` parcels of the batch (not at most one) can still be scraped
after the flag is set; cancellation set before the first check stops the run
with no parcel scraped. -/
theorem cancellation_checks_amended (n cancelAt : Nat) :
    scrapesAfter cancelAt (process_job_trace n cancelAt) ≤ n ∧
    (cancelAt = 0 → process_job_trace n cancelAt = [WEv.check true]) ∧
    (1 ≤ cancelAt → cancelAt ≤ n + 1 →
      WEv.exportStep ∉ process_job_trace n cancelAt ∧
      WEv.uploadStep ∉ process_job_trace n cancelAt ∧
      WEv.finishStep ∉ process_job_trace n cancelAt ∧
      process_job_trace n cancelAt =
        WEv.check false :: (beaconScrapeEvents n ++ [WEv.check true])) := by
  by_cases h0 : cancelAt = 0
  · subst h0
    refine ⟨?_, fun _ => rfl, fun h1 => absurd h1 (by omega)⟩
    have htr0 : process_job_trace n 0 = [WEv.check true] := by
      simp [process_job_trace]
    rw [htr0]
    have hz : scrapesAfter 0 [WEv.check true] = 0 := rfl
    rw [hz]
    exact Nat.zero_le n
  · by_cases h1 : cancelAt ≤ n + 1
    · have htr : process_job_trace n cancelAt =
          WEv.check false :: (beaconScrapeEvents n ++ [WEv.check true]) := by
        simp [process_job_trace, h0, h1]
      refine ⟨?_, fun hc => absurd hc h0, fun _ _ => ⟨?_, ?_, ?_, htr⟩⟩
      · rw [htr]
        have hb := scrapesAfter_le_total cancelAt
          (WEv.check false :: (beaconScrapeEvents n ++ [WEv.check true]))
        have hlen : ((WEv.check false ::
            (beaconScrapeEvents n ++ [WEv.check true])).filter isScrape).length
            = n := by
          simp [List.filter_cons, List.filter_append, isScrape,
            beaconScrapeEvents, filter_isScrape_map]
        rw [hlen] at hb
        exact hb
      · rw [htr]
        simp [beaconScrapeEvents]
      · rw [htr]
        simp [beaconScrapeEvents]
      · rw [htr]
        simp [beaconScrapeEvents]
    · have htr : process_job_trace n cancelAt =
          WEv.check false :: (beaconScrapeEvents n ++
            [WEv.check false, WEv.exportStep, WEv.uploadStep, WEv.finishStep]) := by
        simp [process_job_trace, h0, h1]
      refine ⟨?_, fun hc => absurd hc h0, fun _ hc => absurd hc h1⟩
      rw [htr]
      have hb := scrapesAfter_le_total cancelAt (WEv.check false ::
        (beaconScrapeEvents n ++
          [WEv.check false, WEv.exportStep, WEv.uploadStep, WEv.finishStep]))
      have hlen : ((WEv.check false :: (beaconScrapeEvents n ++
          [WEv.check false, WEv.exportStep, WEv.uploadStep,
           WEv.finishStep])).filter isScrape).length = n := by
        simp [List.filter_cons, List.filter_append, isScrape,
          beaconScrapeEvents, filter_isScrape_map]
      rw [hlen] at hb
      exact hb

/-- Witness for the amended C1 theorem at a concrete 3-parcel job cancelled
just after the first check. -/
theorem cancellation_checks_amended_witness :
    scrapesAfter 1 (process_job_trace 3 1) ≤ 3 ∧
    WEv.exportStep ∉ process_job_trace 3 1 := by
  have h := cancellation_checks_amended 3 1
  exact ⟨h.1, (h.2.2 (by omega) (by omega)).1⟩

/-- Claim C2: at the failing input — a two-parcel WTHGIS job whose second
parcel fails, with export and upload succeeding — the job reaches terminal
`completed` with `parcels_completed = 1`, `parcels_failed = 0`,
`parcel_count = 2`, so `completed + failed ≠ total`: `_update_progress` never
writes `parcels_failed`, contradicting the field's own description
("Number of parcels that failed") and the failed counts the scrapers
compute and return. -/
theorem completed_counts_code_bug :
    (processJobRecord ⟨JStatus.pending, 0, 0, 2, false⟩ [true, false]).status
        = JStatus.completed ∧
    (processJobRecord ⟨JStatus.pending, 0, 0, 2, false⟩ [true, false]).parcels_completed +
        (processJobRecord ⟨JStatus.pending, 0, 0, 2, false⟩ [true, false]).parcels_failed ≠
      (processJobRecord ⟨JStatus.pending, 0, 0, 2, false⟩ [true, false]).parcel_count := by
  decide

/-- Claim C3, counterexample: `extract_parcel_id` strips whitespace first, so
an unmatched input carrying surrounding whitespace is not returned
unchanged. -/
theorem extract_parcel_id_unchanged_cex :
    scanIdx dashPat "NOTAPARCEL ".data = none ∧
    extract_parcel_id "NOTAPARCEL " ≠ "NOTAPARCEL " ∧
    extract_parcel_id "NOTAPARCEL " = "NOTAPARCEL" := by
  decide

/-- Claim C3, amended: `extract_parcel_id` first trims whitespace; on the
trimmed input it returns the suffix starting at the first (leftmost) position
matching `\d{2}-\d{2}-\d{2}-`, and the trimmed input itself when no position
matches; the three cited examples hold as stated. -/
theorem extract_parcel_id_amended (s : String) :
    (∀ i, scanIdx dashPat (pyStripL s.data) = some i →
      extract_parcel_id s = ⟨(pyStripL s.data).drop i⟩ ∧
      dashPat ((pyStripL s.data).drop i) = true ∧
      ∀ j, j < i → dashPat ((pyStripL s.data).drop j) = false) ∧
    (scanIdx dashPat (pyStripL s.data) = none →
      extract_parcel_id s = ⟨pyStripL s.data⟩ ∧
      ∀ j, dashPat ((pyStripL s.data).drop j) = false) ∧
    extract_parcel_id "1400816928-08-22-442-023.000-025"
        = "28-08-22-442-023.000-025" ∧
    extract_parcel_id "28-08-22-442-023.000-025" = "28-08-22-442-023.000-025" ∧
    extract_parcel_id "NOTAPARCEL" = "NOTAPARCEL" := by
  refine ⟨?_, ?_, by decide, by decide, by decide⟩
  · intro i hi
    have hprops := scanIdx_some dashPat (pyStripL s.data) i hi
    exact ⟨by simp [extract_parcel_id, hi], hprops.1, hprops.2⟩
  · intro hn
    exact ⟨by simp [extract_parcel_id, hn], scanIdx_none dashPat (pyStripL s.data) hn⟩

/-- Witness for the amended C3 theorem: a key with a noise prefix, matched at
index 1 of the trimmed input. -/
theorem extract_parcel_id_amended_witness :
    extract_parcel_id "x28-08-22-442-" = "28-08-22-442-" ∧
    dashPat ((pyStripL "x28-08-22-442-".data).drop 1) = true := by
  have h := (extract_parcel_id_amended "x28-08-22-442-").1 1 (by decide)
  exact ⟨h.1.trans (by decide), h.2.1⟩

/-- Claim C4: `build_label` is a pure function of the joined record producing
the PARCEL# line, the upper-cased owner (omitted when missing), and the
instrument line (`BK./PG.` on a slash, `INST#` otherwise, omitted when the
field is missing or the literal `nan`); the three cited examples hold, and the
`nan` / missing-instrument omissions hold for every key and owner. -/
theorem build_label_spec :
    build_label ⟨some "28-08-22-442-023.000-025", none, some "doe, john",
        none, none, some "2018/3706", none, none⟩ =
      "PARCEL# 28-08-22-442-023.000-025\nDOE, JOHN\nBK. 2018, PG. 3706" ∧
    build_label ⟨some "28-08-22-442-023.000-025", none, some "doe, john",
        none, none, some "1234567", none, none⟩ =
      "PARCEL# 28-08-22-442-023.000-025\nDOE, JOHN\nINST# 1234567" ∧
    build_label ⟨some "28-08-22-442-023.000-025", none, some "doe, john",
        none, none, some "nan", none, none⟩ =
      "PARCEL# 28-08-22-442-023.000-025\nDOE, JOHN" ∧
    (∀ key owner : String,
      buildLabelParts ⟨some key, none, some owner, none, none, some "nan",
          none, none⟩ =
        ["PARCEL# " ++ key, ⟨pyUpperL owner.data⟩]) ∧
    (∀ key owner : String,
      buildLabelParts ⟨some key, none, some owner, none, none, none,
          none, none⟩ =
        ["PARCEL# " ++ key, ⟨pyUpperL owner.data⟩]) := by
  exact ⟨by decide, by decide, by decide, fun key owner => rfl,
    fun key owner => rfl⟩

/-- Claim C5: when the target file already exists with non-empty contents,
both downloaders return the existing path, leave the filesystem untouched,
and emit neither an HTTP request nor a politeness delay. -/
theorem download_idempotent (fs : FState)
    (fetch : String → Except String (List Nat)) (url path : String)
    (h : existsNonEmpty fs path = true) :
    download_prc fs fetch url path = (Except.ok path, fs, []) ∧
    download_report_card fs fetch url path =
      (Except.ok path, fs, [FsEff.mkdirs (dirnameOf path)]) ∧
    (∀ e ∈ (download_prc fs fetch url path).2.2, isNetworkEff e = false) ∧
    (∀ e ∈ (download_report_card fs fetch url path).2.2,
      isNetworkEff e = false) := by
  refine ⟨?_, ?_, ?_, ?_⟩ <;>
    simp [download_prc, download_report_card, h, isNetworkEff]

/-- Witness for the C5 theorem at a concrete one-file filesystem. -/
theorem download_idempotent_witness :
    download_prc ⟨[("d/f.pdf", [1])]⟩ (fun _ => Except.ok [7]) "u" "d/f.pdf" =
      (Except.ok "d/f.pdf", (⟨[("d/f.pdf", [1])]⟩ : FState), []) :=
  (download_idempotent ⟨[("d/f.pdf", [1])]⟩ (fun _ => Except.ok [7]) "u"
    "d/f.pdf" (by decide)).1

/-- Claim C6, counterexample: when only one comma-separated part remains
after removing ZIP and state, `_parse_address` assigns it to `street`, not
`city`, so `"SPRINGVILLE, IN 47462"` parses with street `"SPRINGVILLE"` and
empty city — not the claimed street `""` / city `"SPRINGVILLE"`. -/
theorem parse_address_single_part_cex :
    parse_address "SPRINGVILLE, IN 47462" = ⟨"SPRINGVILLE", "", "IN", "47462"⟩ ∧
    parse_address "SPRINGVILLE, IN 47462" ≠ ⟨"", "SPRINGVILLE", "IN", "47462"⟩ := by
  decide

/-- Claim C6, amended: `_parse_address` extracts a 5-or-9-digit ZIP and a
trailing two-letter state, then splits the remainder on commas; with two or
more parts the first is the street and the last the city, with exactly one
part that part is the street and the city stays empty.  The first cited
example holds; the second yields street `"SPRINGVILLE"`, city `""`. -/
theorem parse_address_amended :
    parse_address "123 MAIN ST\nBLOOMFIELD,IN 47424-0000" =
      ⟨"123 MAIN ST", "BLOOMFIELD", "IN", "47424-0000"⟩ ∧
    parse_address "SPRINGVILLE, IN 47462" = ⟨"SPRINGVILLE", "", "IN", "47462"⟩ ∧
    parse_address "123 Main St, City, ST 12345" =
      ⟨"123 Main St", "City", "ST", "12345"⟩ ∧
    parse_address "" = ⟨"", "", "", ""⟩ := by
  decide

/-- Claim C7, counterexample: the entity keywords all carry a leading space,
so the leading word of `"CITY OF SPRINGVILLE"` is not detected as an entity
keyword and the name falls through to the last-token rule, producing
`"SPRINGVILLE"` rather than the claimed `"CITY_OF_SPRINGVILLE"`. -/
theorem owner_filename_stub_city_cex :
    owner_filename_stub "CITY OF SPRINGVILLE" = "SPRINGVILLE" ∧
    owner_filename_stub "CITY OF SPRINGVILLE" ≠ "CITY_OF_SPRINGVILLE" := by
  decide

/-- Claim C7, amended: `"SMITH, JANE A" → "SMITH"`,
`"ACME HOLDINGS LLC" → "ACME_HOLDINGS"`, empty `→ "UNKNOWN"` as claimed,
but entity keywords are only recognised when preceded by a space, so
`"CITY OF SPRINGVILLE" → "SPRINGVILLE"` (last token), while a non-leading
keyword such as in `"SPRINGVILLE CITY"` is kept whole. -/
theorem owner_filename_stub_amended :
    owner_filename_stub "SMITH, JANE A" = "SMITH" ∧
    owner_filename_stub "ACME HOLDINGS LLC" = "ACME_HOLDINGS" ∧
    owner_filename_stub "CITY OF SPRINGVILLE" = "SPRINGVILLE" ∧
    owner_filename_stub "SPRINGVILLE CITY" = "SPRINGVILLE_CITY" ∧
    owner_filename_stub "" = "UNKNOWN" := by
  decide

/-- Claim C8, counterexample: `parse_txt` keeps `#`-prefixed lines — the
cited reader has no comment filter — so the claimed output `["123"]` is
wrong. -/
theorem parse_txt_hash_cex :
    parse_txt "# one\n123" = ["# one", "123"] ∧
    parse_txt "# one\n123" ≠ ["123"] := by
  decide

/-- Claim C8, amended: `parse_txt` returns exactly the whitespace-trimmed
non-empty lines in input order — including lines beginning with `#`, which
are not filtered. -/
theorem parse_txt_amended :
    (∀ content : String,
      parse_txt content =
        ((splitOnCharL '\n' (pyStripL content.data)).map
            (fun l => (⟨pyStripL l⟩ : String))).filter
          (fun s => !s.data.isEmpty)) ∧
    parse_txt "# one\n 123 \n\nabc" = ["# one", "123", "abc"] := by
  refine ⟨fun content => ?_, by decide⟩
  unfold parse_txt
  exact parse_txt_filter_map_comm (splitOnCharL '\n' (pyStripL content.data))

/-- Claim C9, counterexample: a successful fresh download writes the response
body directly to the target path — the trace holds a `fileWrite` on the
target and no `rename` at all, so the temp-then-rename discipline is
absent. -/
theorem download_no_temp_rename_cex :
    (download_prc ⟨[]⟩ (fun _ => Except.ok [7]) "u" "d/f.pdf").2.2 =
      [FsEff.sleep, FsEff.httpGet "u", FsEff.mkdirs "d",
       FsEff.fileWrite "d/f.pdf"] ∧
    ¬ atomicTempRename "d/f.pdf"
        (download_prc ⟨[]⟩ (fun _ => Except.ok [7]) "u" "d/f.pdf").2.2 := by
  have htr : (download_prc ⟨[]⟩ (fun _ => Except.ok [7]) "u" "d/f.pdf").2.2 =
      [FsEff.sleep, FsEff.httpGet "u", FsEff.mkdirs "d",
       FsEff.fileWrite "d/f.pdf"] := by decide
  refine ⟨htr, ?_⟩
  rintro ⟨tmp, _, _, hr⟩
  rw [htr] at hr
  simp at hr

/-- Claim C9, amended: on a fetch error the downloaders leave the filesystem
unchanged and perform no write (the response is fully received and checked
before the file is opened), but a successful download is a single direct
write to the target path — no temporary sibling file and no rename are
involved. -/
theorem download_direct_write_amended (fs : FState)
    (fetch : String → Except String (List Nat)) (url path : String) :
    (∀ e, fetch url = Except.error e →
      (download_prc fs fetch url path).2.1 = fs ∧
      (∀ p, FsEff.fileWrite p ∉ (download_prc fs fetch url path).2.2) ∧
      (download_report_card fs fetch url path).2.1 = fs ∧
      (∀ p, FsEff.fileWrite p ∉ (download_report_card fs fetch url path).2.2)) ∧
    (∀ bytes, fetch url = Except.ok bytes → existsNonEmpty fs path = false →
      (download_prc fs fetch url path).2.2 =
        [FsEff.sleep, FsEff.httpGet url, FsEff.mkdirs (dirnameOf path),
         FsEff.fileWrite path] ∧
      (download_prc fs fetch url path).2.1 = writeFileF fs path bytes ∧
      (∀ a b, FsEff.rename a b ∉ (download_prc fs fetch url path).2.2) ∧
      (download_report_card fs fetch url path).2.2 =
        [FsEff.mkdirs (dirnameOf path), FsEff.sleep, FsEff.httpGet url,
         FsEff.fileWrite path] ∧
      (∀ a b, FsEff.rename a b ∉ (download_report_card fs fetch url path).2.2)) := by
  constructor
  · intro e he
    by_cases hex : existsNonEmpty fs path <;>
      simp [download_prc, download_report_card, hex, he]
  · intro bytes hb hex
    simp [download_prc, download_report_card, hex, hb]

/-- Witness for the amended C9 theorem: an error fetch leaves the empty
filesystem unchanged; a successful fetch writes the target directly. -/
theorem download_direct_write_amended_witness :
    (download_prc ⟨[]⟩ (fun _ => Except.error "boom") "u" "d/f.pdf").2.1 =
      (⟨[]⟩ : FState) ∧
    (download_prc ⟨[]⟩ (fun _ => Except.ok [7]) "u" "d/f.pdf").2.2 =
      [FsEff.sleep, FsEff.httpGet "u", FsEff.mkdirs "d",
       FsEff.fileWrite "d/f.pdf"] := by
  constructor
  · exact ((download_direct_write_amended ⟨[]⟩ (fun _ => Except.error "boom")
      "u" "d/f.pdf").1 "boom" rfl).1
  · have h := ((download_direct_write_amended ⟨[]⟩ (fun _ => Except.ok [7])
      "u" "d/f.pdf").2 [7] rfl (by decide)).1
    exact h.trans (by decide)

/-- Claim C10: `parse_city_state_zip` is all-or-nothing — every result is
either `(none, none, none)` or has all three fields present, and the latter
happens exactly when the whitespace-collapsed, comma-normalised, upper-cased
input admits the `city,ST zip` pattern; an input with a valid ZIP but no
comma-separated city (`"IN 47462"`) yields no fields at all. -/
theorem parse_city_state_zip_all_or_nothing (s : String) :
    (parse_city_state_zip s = (none, none, none) ∨
      ∃ c st z, parse_city_state_zip s = (some c, some st, some z)) ∧
    ((∃ c st z, parse_city_state_zip s = (some c, some st, some z)) ↔
      (cszScan (cszNormalize s)).isSome) ∧
    parse_city_state_zip "IN 47462" = (none, none, none) := by
  refine ⟨?_, ?_, by decide⟩ <;>
  · by_cases hb : s.data.isEmpty
    · have hnil : s.data = [] := by simpa using hb
      have hnorm : cszNormalize s = [] := by
        unfold cszNormalize splitWsL
        rw [hnil]
        decide
      simp [parse_city_state_zip, hb, hnorm, cszScan]
    · cases hscan : cszScan (cszNormalize s) with
      | none => simp [parse_city_state_zip, hb, hscan]
      | some r => simp [parse_city_state_zip, hb, hscan]

/-- Witness for the C10 theorem: the second cited address example produces a
fully populated triple. -/
theorem parse_city_state_zip_all_or_nothing_witness :
    ∃ c st z, parse_city_state_zip "SPRINGVILLE, IN 47462" =
      (some c, some st, some z) :=
  ((parse_city_state_zip_all_or_nothing "SPRINGVILLE, IN 47462").2.1).mpr
    (by decide)
